import Mathlib

/-
Verification of the neo4graph-visualizer graph pipeline.

The two React components under src/components/Graph are embedded shallowly:
pure computations become Lean functions, and each React effect or handler
becomes an explicit state-transition function on a record of the component's
state.  The utility functions imported from utils/Utils (processGraphData,
filterData, graphTypeFromNodes) and the constants from utils/Constants are
not part of the two source files; they are modelled from the specification
and marked as such in their doc comments.
-/

namespace NeoViz

/-- A graph node as it flows through the pipeline: identity, ordered label
list, property bag, and the display attributes (caption, color) filled in by
normalization.  Property values and colors are kept concrete (`String`,
`Nat`) since the pipeline treats them opaquely. -/
structure ExtendedNode where
  id : String
  labels : List String
  properties : List (String × String)
  caption : String
  color : Nat
deriving DecidableEq, Repr

/-- A relationship record: identity, kind tag, and the two endpoint node
ids (`from` and `to` in the source; both are reserved in Lean, hence the
trailing underscores). -/
structure ExtendedRelationship where
  id : String
  type : String
  from_ : String
  to_ : String
deriving DecidableEq, Repr

/-- Graph categories are the string tags the source compares with
`includes("DocumentChunk")` / `includes("Entities")`. -/
abbrev GraphType := String

/-- The scheme is the label-to-color mapping, kept as an association list so
that insertion order (append-only growth) is observable. -/
abbrev Scheme := List (String × Nat)

/-- First-match association-list lookup, used for both scheme and property
bags. -/
def assocFind {α : Type} : List (String × α) → String → Option α
  | [], _ => none
  | (k, v) :: rest, key => if k = key then some v else assocFind rest key

/-- Modelled from the spec: the Scheme Assigner's fixed finite palette
(§4.2); the palette size is fixed and new labels cycle through it by
position.  The concrete palette lives in utils (absent from src/). -/
def paletteSize : Nat := 8

/-- Modelled from the spec: `assign(label, existingScheme) -> (color,
updatedScheme)` (§4.2).  An existing label keeps its color and leaves the
scheme unchanged; a new label receives the next palette color (cycling by
position) and is appended. -/
def assign (label : String) (scheme : Scheme) : Nat × Scheme :=
  match assocFind scheme label with
  | some c => (c, scheme)
  | none => (scheme.length % paletteSize, scheme ++ [(label, scheme.length % paletteSize)])

/-- The first label of a node drives classification and coloring (§3). -/
def primaryLabel (n : ExtendedNode) : String :=
  n.labels.headD ""

/-- Modelled from the spec: the ordered list of candidate property names
used for caption derivation (§4.3 step 2); the concrete list lives in utils
(absent from src/). -/
def captionCandidateKeys : List String :=
  ["fileName", "name", "title", "text"]

/-- Modelled from the spec: caption derivation (§4.3 step 2) — the first
non-empty candidate property, falling back to the truncated id. -/
def captionOf (n : ExtendedNode) : String :=
  match captionCandidateKeys.findSome? (fun k =>
    match assocFind n.properties k with
    | some v => if v = "" then none else some v
    | none => none) with
  | some v => v
  | none => n.id.take 20

/-- Modelled from the spec: property merge for duplicate node ids (§4.3
step 1) — later entries override earlier ones for overlapping keys, other
keys are unioned. -/
def mergeProps (older newer : List (String × String)) : List (String × String) :=
  newer ++ older.filter (fun kv => (assocFind newer kv.1).isNone)

/-- Modelled from the spec: node deduplication by id (§4.3 step 1).  The
first record fixes identity and labels; later duplicates merge their
properties in. -/
def dedupeNodes (ns : List ExtendedNode) : List ExtendedNode :=
  ns.foldl (fun acc n =>
    if acc.any (fun m => m.id == n.id) then
      acc.map (fun m =>
        if m.id == n.id then { m with properties := mergeProps m.properties n.properties } else m)
    else acc ++ [n]) []

/-- Modelled from the spec: the annotation pass of the Graph Normalizer
(§4.3 steps 2–3) — derive each node's caption and color, threading the
scheme through the whole pass so repeated labels share colors and the
scheme accumulates monotonically. -/
def assignNodes : List ExtendedNode → Scheme → List ExtendedNode × Scheme
  | [], s => ([], s)
  | n :: rest, s =>
    let p := assign (primaryLabel n) s
    let q := assignNodes rest p.2
    ({ n with caption := captionOf n, color := p.1 } :: q.1, q.2)

/-- Modelled from the spec: relationship deduplication by id (§4.3
step 4), keeping the first occurrence. -/
def dedupeRels (rs : List ExtendedRelationship) : List ExtendedRelationship :=
  rs.foldl (fun acc r => if acc.any (fun x => x.id == r.id) then acc else acc ++ [r]) []

/-- Result shape of `processGraphData`, matching the fields the source
destructures (`finalNodes`, `finalRels`, `schemeVal`). -/
structure ProcessedData where
  finalNodes : List ExtendedNode
  finalRels : List ExtendedRelationship
  schemeVal : Scheme
deriving DecidableEq, Repr

/-- Modelled from the spec: `processGraphData` / `normalize(rawNodes,
rawRelationships)` (§4.3) — the body lives in utils/Utils which is absent
from src/; the signature is fixed by the call site in
EmbeddedGraphView.tsx.  Deduplicate nodes by id, annotate caption and
color threading a fresh scheme, deduplicate relationships by id and drop
any whose endpoint is not among the deduplicated node ids. -/
def processGraphData (rawNodes : List ExtendedNode)
    (rawRels : List ExtendedRelationship) : ProcessedData :=
  let deduped := dedupeNodes rawNodes
  let ns := assignNodes deduped []
  let ids := ns.1.map (fun n => n.id)
  let finalRels := (dedupeRels rawRels).filter
    (fun r => ids.contains r.from_ && ids.contains r.to_)
  ⟨ns.1, finalRels, ns.2⟩

/-- Modelled from the spec: the Label Classifier's per-node category rule
(§4.1) — the primary label determines whether a node counts as a document
chunk or an entity; the exact label vocabulary lives in utils (absent from
src/). -/
def nodeCategory (n : ExtendedNode) : GraphType :=
  if primaryLabel n = "Document" ∨ primaryLabel n = "Chunk" then "DocumentChunk"
  else "Entities"

/-- Modelled from the spec: `graphTypeFromNodes` (§4.1) — the distinct
categories present across the node collection. -/
def graphTypeFromNodes (ns : List ExtendedNode) : List GraphType :=
  (ns.map nodeCategory).dedup

/-- Result shape of `filterData`, matching the fields the source
destructures (`filteredNodes`, `filteredRelations`). -/
structure FilteredData where
  filteredNodes : List ExtendedNode
  filteredRelations : List ExtendedRelationship
deriving DecidableEq, Repr

/-- Modelled from the spec: `filterData(graphType, allNodes,
allRelationships, scheme)` (§4.4) — the body lives in utils/Utils which is
absent from src/; the four-argument signature (with no query parameter) is
fixed by the call site in EmbeddedGraphView.tsx.  Retain the nodes whose
primary label maps to an active category, then retain the relationships
both of whose endpoints survive. -/
def filterData (graphType : List GraphType) (allNodes : List ExtendedNode)
    (allRelationships : List ExtendedRelationship) (scheme : Scheme) : FilteredData :=
  let filteredNodes := allNodes.filter (fun n => decide (nodeCategory n ∈ graphType))
  let ids := filteredNodes.map (fun n => n.id)
  let filteredRelations := allRelationships.filter
    (fun r => ids.contains r.from_ && ids.contains r.to_)
  ⟨filteredNodes, filteredRelations⟩

/-- The pair of visible-state fields (`node`, `relationship`) that the
search-filter effect writes. -/
structure VisibleState where
  node : List ExtendedNode
  relationship : List ExtendedRelationship
deriving DecidableEq, Repr

/-- The search-filter effect of EmbeddedGraphView.tsx (lines 150–164): when
the debounced query is non-empty and canonical nodes exist, the visible
state is set from `filterData(graphType, allNodes, allRelationships,
scheme)` — note the call site passes no query; otherwise, when canonical
nodes exist, the full canonical sets are shown; otherwise the previous
visible state is left untouched. -/
def searchEffect (debouncedQuery : String) (graphType : List GraphType)
    (allNodes : List ExtendedNode) (allRelationships : List ExtendedRelationship)
    (scheme : Scheme) (prev : VisibleState) : VisibleState :=
  if debouncedQuery ≠ "" ∧ allNodes ≠ [] then
    let fd := filterData graphType allNodes allRelationships scheme
    ⟨fd.filteredNodes, fd.filteredRelations⟩
  else if allNodes ≠ [] then ⟨allNodes, allRelationships⟩
  else prev

/-- Status values of EmbeddedGraphView.tsx's `status` state. -/
inductive GraphStatus where
  | unknown
  | success
  | danger
deriving DecidableEq, Repr

/-- The EmbeddedGraphView state fields written by the data effect. -/
structure ComponentState where
  node : List ExtendedNode
  relationship : List ExtendedRelationship
  allNodes : List ExtendedNode
  allRelationships : List ExtendedRelationship
  graphType : List GraphType
  scheme : Scheme
  newScheme : Scheme
  status : GraphStatus
  statusMessage : String
deriving DecidableEq, Repr

/-- The data effect of EmbeddedGraphView.tsx (lines 101–147): with
non-empty raw input, every derived field is recomputed from the raw input
alone (the scheme is rebuilt by a fresh `processGraphData` call, not
threaded from the previous one); with empty raw input every field is reset
to its empty value.  The catch branch of the source is unreachable here
because the modelled `processGraphData` is total. -/
def dataEffect (nodeValues : List ExtendedNode)
    (relationshipValues : List ExtendedRelationship)
    (prev : ComponentState) : ComponentState :=
  if nodeValues ≠ [] ∨ relationshipValues ≠ [] then
    let graphTypes := graphTypeFromNodes nodeValues
    let processedData := processGraphData nodeValues relationshipValues
    { node := processedData.finalNodes
      relationship := processedData.finalRels
      allNodes := processedData.finalNodes
      allRelationships := processedData.finalRels
      graphType := graphTypes
      scheme := processedData.schemeVal
      newScheme := processedData.schemeVal
      status := GraphStatus.success
      statusMessage := "Graph loaded successfully" }
  else
    { node := []
      relationship := []
      allNodes := []
      allRelationships := []
      graphType := []
      scheme := []
      newScheme := []
      status := GraphStatus.unknown
      statusMessage := "" }

/-- `handleCheckboxChange` of EmbeddedGraphView.tsx (lines 208–213): if the
category is present, drop every occurrence; otherwise append it. -/
def handleCheckboxChange (graphType : List GraphType) (graph : GraphType) : List GraphType :=
  if graphType.contains graph then graphType.filter (fun t => decide (t ≠ graph))
  else graphType ++ [graph]

/-- `handleRefresh` of EmbeddedGraphView.tsx (lines 201–206): restore the
visible state to the full canonical sets when canonical nodes exist. -/
def handleRefresh (allNodes : List ExtendedNode)
    (allRelationships : List ExtendedRelationship) (prev : VisibleState) : VisibleState :=
  if allNodes ≠ [] then ⟨allNodes, allRelationships⟩ else prev

/-- The three backend query strings from utils/Constants (absent from
src/), kept abstract as a structure so the derivation of `graphQuery` can
be verified without their concrete values. -/
structure QueryMap where
  DocChunkEntities : String
  DocChunks : String
  Entities : String
deriving DecidableEq, Repr

/-- The derived `graphQuery` value of EmbeddedGraphView.tsx (lines 81–88):
a conditional chain on membership of "DocumentChunk" and "Entities" in the
current `graphType` list. -/
def graphQuery (queryMap : QueryMap) (graphType : List GraphType) : String :=
  if "DocumentChunk" ∈ graphType ∧ "Entities" ∈ graphType then queryMap.DocChunkEntities
  else if "DocumentChunk" ∈ graphType then queryMap.DocChunks
  else if "Entities" ∈ graphType then queryMap.Entities
  else ""

/-- The GraphViewer state fields touched by the load handlers. -/
structure ViewerState where
  nodes : List ExtendedNode
  relationships : List ExtendedRelationship
  loading : Bool
  error : Option String
  showGraph : Bool
deriving DecidableEq, Repr

/-- A thrown fetch error as the catch block inspects it: its `name`
(compared with "AbortError") and its `message`. -/
structure FetchError where
  name : String
  message : String
deriving DecidableEq, Repr

/-- Outcome of the backend fetch, the only asynchronous boundary: either
the response's transformed node/relationship payload or a thrown error. -/
inductive FetchOutcome where
  | success (nodes : List ExtendedNode) (relationships : List ExtendedRelationship)
  | failure (err : FetchError)
deriving DecidableEq, Repr

/-- The timeout-cancellation message of GraphViewer.tsx (lines 77–79). -/
def timeoutMessage : String :=
  "Request was cancelled due to timeout. The backend is taking too long to respond."

/-- The fallback failure message of GraphViewer.tsx (lines 81–84), used
when the thrown error carries no message. -/
def fallbackMessage : String :=
  "Failed to load data from backend. Check your connection details."

/-- `handleLoadBackendData` of GraphViewer.tsx (lines 36–89) as a state
transition on the fetch outcome: on success the node/relationship state is
replaced and the graph view reset; on failure the node/relationship state
is untouched and only the error message is set — the timeout abort gets
its fixed message, any other error gets its own message or the fallback. -/
def handleLoadBackendData (outcome : FetchOutcome) (prev : ViewerState) : ViewerState :=
  match outcome with
  | FetchOutcome.success ns rs =>
    { prev with nodes := ns, relationships := rs, showGraph := false,
                error := none, loading := false }
  | FetchOutcome.failure err =>
    { prev with
      error := some (if err.name = "AbortError" then timeoutMessage
                     else if err.message ≠ "" then err.message else fallbackMessage),
      loading := false }

/-- `handleLoadSampleData` of GraphViewer.tsx (lines 26–34): replace the
raw node/relationship state wholesale and reset the view. -/
def handleLoadSampleData (sampleNodes : List ExtendedNode)
    (sampleRelationships : List ExtendedRelationship) (prev : ViewerState) : ViewerState :=
  { prev with nodes := sampleNodes, relationships := sampleRelationships,
              error := none, showGraph := false }

/-- The mutually exclusive render outcomes of EmbeddedGraphView.tsx's
return expression. -/
inductive RenderCase where
  | noData
  | loadingView
  | dangerBanner
  | noMatchesBanner
  | selectCategoryBanner
  | graphCanvas
deriving DecidableEq, Repr

/-- The branch structure of EmbeddedGraphView.tsx's rendering (the early
return at lines 240–252 and the banner chain at lines 292–325): empty raw
input short-circuits to the plain no-data card; otherwise the spinner,
the danger banner, the no-matches banner (empty visible set with at least
one active category), the select-a-category banner (checkbox view with no
active category), and finally the graph canvas. -/
def renderCase (nodeValues : List ExtendedNode)
    (relationshipValues : List ExtendedRelationship) (loading : Bool)
    (status : GraphStatus) (node : List ExtendedNode)
    (relationship : List ExtendedRelationship) (graphType : List GraphType)
    (checkBoxView : Bool) : RenderCase :=
  if nodeValues = [] ∧ relationshipValues = [] then RenderCase.noData
  else if loading then RenderCase.loadingView
  else if status = GraphStatus.danger then RenderCase.dangerBanner
  else if node = [] ∧ relationship = [] ∧ graphType ≠ [] then RenderCase.noMatchesBanner
  else if graphType = [] ∧ checkBoxView then RenderCase.selectCategoryBanner
  else RenderCase.graphCanvas

/-- ASCII lowercasing on character codes, used only to state the spec's
case-insensitive search criterion. -/
def lowerCode (n : Nat) : Nat :=
  if 65 ≤ n ∧ n ≤ 90 then n + 32 else n

/-- Case-insensitive substring test on the lowercased character codes of
the two strings, used only to state the spec's search criterion. -/
def containsCI (hay needle : String) : Bool :=
  let h := (hay.toList.map Char.toNat).map lowerCode
  let n := (needle.toList.map Char.toNat).map lowerCode
  (List.range (h.length + 1)).any (fun i => decide ((h.drop i).take n.length = n))

/-- Stated from the spec's words (for comparison with the code, not taken
from it): a node matches the search query when its caption or one of the
designated candidate properties case-insensitively contains the query
substring (§4.4). -/
def matchesQuerySpec (query : String) (n : ExtendedNode) : Bool :=
  containsCI n.caption query ||
    n.properties.any (fun kv =>
      captionCandidateKeys.contains kv.1 && containsCI kv.2 query)

/-- Sample raw document node (the spec's §8 scenario). -/
def docNode : ExtendedNode :=
  ⟨"1", ["Document"], [("fileName", "a.pdf")], "", 0⟩

/-- Sample raw chunk node (the spec's §8 scenario). -/
def chunkNode : ExtendedNode :=
  ⟨"2", ["Chunk"], [("text", "hello")], "", 0⟩

/-- Sample entity-like node whose primary label is neither Document nor
Chunk. -/
def entityNode : ExtendedNode :=
  ⟨"3", ["Person"], [], "bob", 1⟩

/-- Sample relationship connecting the document to its chunk. -/
def relOne : ExtendedRelationship :=
  ⟨"r1", "HAS_CHUNK", "1", "2"⟩

/-- A canonical (already normalized) node, as the search-filter effect sees
it: caption and color filled in. -/
def canonNode : ExtendedNode :=
  ⟨"1", ["Document"], [("fileName", "a.pdf")], "a.pdf", 0⟩

/-- A populated GraphViewer state used to exercise the load handlers. -/
def sampleViewerState : ViewerState :=
  ⟨[canonNode], [relOne], false, none, true⟩

/-- The all-empty EmbeddedGraphView state. -/
def emptyComponentState : ComponentState :=
  ⟨[], [], [], [], [], [], [], GraphStatus.unknown, ""⟩

lemma mem_filteredNodes {gt : List GraphType} {ns : List ExtendedNode}
    {rs : List ExtendedRelationship} {s : Scheme} {n : ExtendedNode} :
    n ∈ (filterData gt ns rs s).filteredNodes ↔ n ∈ ns ∧ nodeCategory n ∈ gt := by
  simp [filterData, List.mem_filter]

lemma mem_filteredRelations {gt : List GraphType} {ns : List ExtendedNode}
    {rs : List ExtendedRelationship} {s : Scheme} {r : ExtendedRelationship} :
    r ∈ (filterData gt ns rs s).filteredRelations ↔
      r ∈ rs ∧
        (∃ n ∈ (filterData gt ns rs s).filteredNodes, n.id = r.from_) ∧
        (∃ n ∈ (filterData gt ns rs s).filteredNodes, n.id = r.to_) := by
  simp only [filterData, List.mem_filter, Bool.and_eq_true, List.contains,
    List.elem_iff, List.mem_map]

/-- C9: `graphQuery` depends only on which of the two category tags are
members of `graphType`, picking the corresponding query string from the
query map (and the empty string when neither tag is present); lists with
the same membership yield the same query. -/
theorem c9_graphQuery_by_membership (queryMap : QueryMap) (gt : List GraphType) :
    ("DocumentChunk" ∈ gt → "Entities" ∈ gt →
      graphQuery queryMap gt = queryMap.DocChunkEntities) ∧
    ("DocumentChunk" ∈ gt → "Entities" ∉ gt →
      graphQuery queryMap gt = queryMap.DocChunks) ∧
    ("DocumentChunk" ∉ gt → "Entities" ∈ gt →
      graphQuery queryMap gt = queryMap.Entities) ∧
    ("DocumentChunk" ∉ gt → "Entities" ∉ gt →
      graphQuery queryMap gt = "") ∧
    (∀ gt' : List GraphType, (∀ g : GraphType, g ∈ gt ↔ g ∈ gt') →
      graphQuery queryMap gt = graphQuery queryMap gt') := by
  refine ⟨?_, ?_, ?_, ?_, ?_⟩
  · intro h1 h2
    simp only [graphQuery, if_pos (And.intro h1 h2)]
  · intro h1 h2
    have hc : ¬("DocumentChunk" ∈ gt ∧ "Entities" ∈ gt) := fun hc => h2 hc.2
    simp only [graphQuery, if_neg hc, if_pos h1]
  · intro h1 h2
    have hc : ¬("DocumentChunk" ∈ gt ∧ "Entities" ∈ gt) := fun hc => h1 hc.1
    simp only [graphQuery, if_neg hc, if_neg h1, if_pos h2]
  · intro h1 h2
    have hc : ¬("DocumentChunk" ∈ gt ∧ "Entities" ∈ gt) := fun hc => h1 hc.1
    simp only [graphQuery, if_neg hc, if_neg h1, if_neg h2]
  · intro gt' h
    simp only [graphQuery, h]

/-- Witness for C9 at a concrete query map and category list. -/
theorem c9_witness :
    graphQuery ⟨"qa", "qb", "qc"⟩ ["DocumentChunk"] = "qb" :=
  (c9_graphQuery_by_membership ⟨"qa", "qb", "qc"⟩ ["DocumentChunk"]).2.1
    (by decide) (by decide)

lemma checkbox_mem_eq {gt : List GraphType} {g : GraphType} (hg : g ∈ gt) :
    handleCheckboxChange gt g = gt.filter (fun t => decide (t ≠ g)) := by
  simp [handleCheckboxChange, List.contains, List.elem_iff, hg]

lemma checkbox_not_mem_eq {gt : List GraphType} {g : GraphType} (hg : g ∉ gt) :
    handleCheckboxChange gt g = gt ++ [g] := by
  simp [handleCheckboxChange, List.contains, List.elem_iff, hg]

/-- C10: toggling a category on a duplicate-free list flips exactly that
category's membership (every occurrence is removed when present, the
category is appended when absent), leaves every other category's
membership unchanged, and toggling twice restores the original
membership. -/
theorem c10_checkbox_toggle (gt : List GraphType) (g : GraphType)
    (hnd : gt.Nodup) :
    (g ∈ handleCheckboxChange gt g ↔ g ∉ gt) ∧
    (∀ h : GraphType, h ≠ g →
      (h ∈ handleCheckboxChange gt g ↔ h ∈ gt)) ∧
    (∀ h : GraphType,
      h ∈ handleCheckboxChange (handleCheckboxChange gt g) g ↔ h ∈ gt) := by
  by_cases hg : g ∈ gt
  · have hfirst := checkbox_mem_eq hg
    have hgout : g ∉ handleCheckboxChange gt g := by
      simp [hfirst, List.mem_filter]
    have hsecond := checkbox_not_mem_eq hgout
    refine ⟨by simp [hfirst, List.mem_filter, hg], ?_, ?_⟩
    · intro h hne; simp [hfirst, List.mem_filter, hne]
    · intro h
      rw [hsecond, hfirst]
      simp only [List.mem_append, List.mem_filter, List.mem_singleton,
        decide_eq_true_eq]
      constructor
      · rintro (⟨hh, _⟩ | rfl)
        · exact hh
        · exact hg
      · intro hh
        by_cases hhg : h = g
        · exact Or.inr hhg
        · exact Or.inl ⟨hh, hhg⟩
  · have hfirst := checkbox_not_mem_eq hg
    have hgin : g ∈ handleCheckboxChange gt g := by
      simp [hfirst]
    have hsecond := checkbox_mem_eq hgin
    refine ⟨by simp [hfirst, hg], ?_, ?_⟩
    · intro h hne; simp [hfirst, hne]
    · intro h
      rw [hsecond, hfirst]
      simp only [List.filter_append, List.mem_append, List.mem_filter,
        decide_eq_true_eq]
      constructor
      · rintro (⟨hh, _⟩ | hh)
        · exact hh
        · simp at hh
      · intro hh
        have hhg : h ≠ g := fun e => hg (e ▸ hh)
        exact Or.inl ⟨hh, hhg⟩

/-- Witness for C10 on a concrete duplicate-free list. -/
theorem c10_witness :
    "Entities" ∈ handleCheckboxChange
      (handleCheckboxChange ["DocumentChunk", "Entities"] "Entities") "Entities" :=
  ((c10_checkbox_toggle ["DocumentChunk", "Entities"] "Entities"
    (by decide)).2.2 "Entities").mpr (by decide)

/-- C6: on any fetch failure the previously displayed node and
relationship state is left untouched; the timeout abort produces its
dedicated message, any other failure produces the thrown message or the
fallback, and the dedicated timeout message differs from the fallback. -/
theorem c6_failure_preserves_graph (err : FetchError) (prev : ViewerState) :
    (handleLoadBackendData (FetchOutcome.failure err) prev).nodes = prev.nodes ∧
    (handleLoadBackendData (FetchOutcome.failure err) prev).relationships
      = prev.relationships ∧
    (err.name = "AbortError" →
      (handleLoadBackendData (FetchOutcome.failure err) prev).error
        = some timeoutMessage) ∧
    (err.name ≠ "AbortError" → err.message ≠ "" →
      (handleLoadBackendData (FetchOutcome.failure err) prev).error
        = some err.message) ∧
    (err.name ≠ "AbortError" → err.message = "" →
      (handleLoadBackendData (FetchOutcome.failure err) prev).error
        = some fallbackMessage) ∧
    timeoutMessage ≠ fallbackMessage := by
  refine ⟨rfl, rfl, ?_, ?_, ?_, by decide⟩
  · intro h1
    simp [handleLoadBackendData, h1]
  · intro h1 h2
    simp [handleLoadBackendData, h1, h2]
  · intro h1 h2
    simp [handleLoadBackendData, h1, h2]

/-- Witness for C6: an aborted fetch over a populated viewer state keeps
the graph and reports the timeout message. -/
theorem c6_witness :
    (handleLoadBackendData (FetchOutcome.failure ⟨"AbortError", ""⟩)
      sampleViewerState).nodes = sampleViewerState.nodes ∧
    (handleLoadBackendData (FetchOutcome.failure ⟨"AbortError", ""⟩)
      sampleViewerState).error = some timeoutMessage :=
  ⟨(c6_failure_preserves_graph ⟨"AbortError", ""⟩ sampleViewerState).1,
    (c6_failure_preserves_graph ⟨"AbortError", ""⟩ sampleViewerState).2.2.1 rfl⟩

/-- C7: the data effect recomputes every derived field from the raw input
alone (the result never depends on the previous state), resets everything
to empty when both raw inputs are empty, and the sample-data handler
replaces the raw state wholesale. -/
theorem c7_full_replacement :
    (∀ (nv : List ExtendedNode) (rv : List ExtendedRelationship)
      (p p' : ComponentState), dataEffect nv rv p = dataEffect nv rv p') ∧
    (∀ p : ComponentState, dataEffect [] [] p = emptyComponentState) ∧
    (∀ (nv : List ExtendedNode) (rv : List ExtendedRelationship)
      (p : ComponentState), nv ≠ [] ∨ rv ≠ [] →
      (dataEffect nv rv p).allNodes = (processGraphData nv rv).finalNodes ∧
      (dataEffect nv rv p).allRelationships = (processGraphData nv rv).finalRels ∧
      (dataEffect nv rv p).scheme = (processGraphData nv rv).schemeVal ∧
      (dataEffect nv rv p).graphType = graphTypeFromNodes nv) ∧
    (∀ (sn : List ExtendedNode) (sr : List ExtendedRelationship)
      (p : ViewerState),
      (handleLoadSampleData sn sr p).nodes = sn ∧
      (handleLoadSampleData sn sr p).relationships = sr) := by
  refine ⟨fun nv rv p p' => rfl, fun p => rfl, ?_, fun sn sr p => ⟨rfl, rfl⟩⟩
  intro nv rv p h
  unfold dataEffect
  rw [if_pos h]
  exact ⟨rfl, rfl, rfl, rfl⟩

/-- Witness for C7 at the concrete sample input. -/
theorem c7_witness :
    (dataEffect [docNode] [] emptyComponentState).allNodes
      = (processGraphData [docNode] []).finalNodes :=
  ((c7_full_replacement.2.2.1 [docNode] [] emptyComponentState)
    (Or.inl (by decide))).1

/-- C1: after normalization and filtering, every visible relationship has
both of its endpoints among the visible nodes — no dangling edge survives
the pipeline. -/
theorem c1_pipeline_no_dangling (rawNodes : List ExtendedNode)
    (rawRels : List ExtendedRelationship) (gt : List GraphType) (sch : Scheme)
    (r : ExtendedRelationship)
    (hr : r ∈ (filterData gt (processGraphData rawNodes rawRels).finalNodes
      (processGraphData rawNodes rawRels).finalRels sch).filteredRelations) :
    (∃ n ∈ (filterData gt (processGraphData rawNodes rawRels).finalNodes
      (processGraphData rawNodes rawRels).finalRels sch).filteredNodes,
      n.id = r.from_) ∧
    (∃ n ∈ (filterData gt (processGraphData rawNodes rawRels).finalNodes
      (processGraphData rawNodes rawRels).finalRels sch).filteredNodes,
      n.id = r.to_) :=
  (mem_filteredRelations.mp hr).2

/-- Witness for C1 on the spec's §8 scenario graph. -/
theorem c1_witness :
    (∃ n ∈ (filterData ["DocumentChunk"]
      (processGraphData [docNode, chunkNode] [relOne]).finalNodes
      (processGraphData [docNode, chunkNode] [relOne]).finalRels
      []).filteredNodes, n.id = relOne.from_) ∧
    (∃ n ∈ (filterData ["DocumentChunk"]
      (processGraphData [docNode, chunkNode] [relOne]).finalNodes
      (processGraphData [docNode, chunkNode] [relOne]).finalRels
      []).filteredNodes, n.id = relOne.to_) :=
  c1_pipeline_no_dangling [docNode, chunkNode] [relOne] ["DocumentChunk"] []
    relOne (by decide)

/-- C5: the filter is a function of the full canonical graph: it is
idempotent (filtering its own output with the same criteria changes
nothing), and the search-filter effect's result never depends on the
previously visible set once canonical nodes exist. -/
theorem c5_filter_idempotent_stateless :
    (∀ (gt : List GraphType) (ns : List ExtendedNode)
      (rs : List ExtendedRelationship) (s : Scheme),
      filterData gt (filterData gt ns rs s).filteredNodes
        (filterData gt ns rs s).filteredRelations s = filterData gt ns rs s) ∧
    (∀ (q : String) (gt : List GraphType) (ns : List ExtendedNode)
      (rs : List ExtendedRelationship) (s : Scheme) (p p' : VisibleState),
      ns ≠ [] → searchEffect q gt ns rs s p = searchEffect q gt ns rs s p') := by
  constructor
  · intro gt ns rs s
    have hn : List.filter (fun n => decide (nodeCategory n ∈ gt))
        (List.filter (fun n => decide (nodeCategory n ∈ gt)) ns)
        = List.filter (fun n => decide (nodeCategory n ∈ gt)) ns := by
      rw [List.filter_filter]
      simp
    simp only [filterData]
    rw [hn]
    refine congrArg (FilteredData.mk _) ?_
    refine List.filter_eq_self.mpr ?_
    intro r hr
    exact (List.mem_filter.mp hr).2
  · intro q gt ns rs s p p' h
    unfold searchEffect
    rcases eq_or_ne q "" with hq | hq
    · have hcond : ¬(q ≠ "" ∧ ns ≠ []) := by simp [hq]
      rw [if_neg hcond, if_neg hcond, if_pos h, if_pos h]
    · have hcond : q ≠ "" ∧ ns ≠ [] := ⟨hq, h⟩
      rw [if_pos hcond, if_pos hcond]

/-- Witness for C5: with a non-empty canonical set the effect ignores the
previous visible state. -/
theorem c5_witness :
    searchEffect "q" ["DocumentChunk"] [canonNode] [relOne] []
      ⟨[], []⟩ =
    searchEffect "q" ["DocumentChunk"] [canonNode] [relOne] []
      ⟨[entityNode], [relOne]⟩ :=
  c5_filter_idempotent_stateless.2 "q" ["DocumentChunk"] [canonNode] [relOne]
    [] ⟨[], []⟩ ⟨[entityNode], [relOne]⟩ (by decide)

/-- Counterexample to C2 as stated: with query "zzz" the effect's visible
set is non-empty although no visible node's caption or candidate property
contains "zzz" — the call site passes no query to `filterData`, so the
query content never narrows the visible set. -/
theorem c2_counterexample :
    (searchEffect "zzz" ["DocumentChunk"]
      (processGraphData [docNode] []).finalNodes
      (processGraphData [docNode] []).finalRels
      (processGraphData [docNode] []).schemeVal ⟨[], []⟩).node ≠ [] ∧
    (searchEffect "zzz" ["DocumentChunk"]
      (processGraphData [docNode] []).finalNodes
      (processGraphData [docNode] []).finalRels
      (processGraphData [docNode] []).schemeVal ⟨[], []⟩).node.all
      (fun n => !matchesQuerySpec "zzz" n) = true := by decide

/-- C2 as amended: a non-empty query only triggers the category filter —
the visible set equals `filterData`'s output and is the same for every
non-empty query string. -/
theorem c2_amended_query_only_triggers (q : String) (gt : List GraphType)
    (ns : List ExtendedNode) (rs : List ExtendedRelationship) (s : Scheme)
    (p : VisibleState) (hq : q ≠ "") (hns : ns ≠ []) :
    (searchEffect q gt ns rs s p).node = (filterData gt ns rs s).filteredNodes ∧
    (searchEffect q gt ns rs s p).relationship
      = (filterData gt ns rs s).filteredRelations ∧
    (∀ q' : String, q' ≠ "" →
      searchEffect q' gt ns rs s p = searchEffect q gt ns rs s p) := by
  have hcond : q ≠ "" ∧ ns ≠ [] := ⟨hq, hns⟩
  unfold searchEffect
  rw [if_pos hcond]
  refine ⟨rfl, rfl, ?_⟩
  intro q' hq'
  rw [if_pos ⟨hq', hns⟩]

/-- Witness for the amended C2 at a concrete graph and query. -/
theorem c2_witness :
    (searchEffect "zzz" ["DocumentChunk"] [canonNode] [relOne] []
      ⟨[], []⟩).node
      = (filterData ["DocumentChunk"] [canonNode] [relOne] []).filteredNodes :=
  (c2_amended_query_only_triggers "zzz" ["DocumentChunk"] [canonNode] [relOne]
    [] ⟨[], []⟩ (by decide) (by decide)).1

/-- Counterexample to C3 as stated: with an empty query the effect shows
the full canonical set, so a node whose category is not active is still
visible — the category restriction does not hold "regardless of whether a
search query is present". -/
theorem c3_counterexample :
    (searchEffect "" ["DocumentChunk"] [entityNode] [] [] ⟨[], []⟩).node
      = [entityNode] ∧
    decide (nodeCategory entityNode ∈ (["DocumentChunk"] : List GraphType))
      = false := by decide

/-- C3 as amended: only when the query is non-empty does the visible set
respect the active categories — every visible node's category is active,
and an empty category set yields an empty visible set. -/
theorem c3_amended_category_filter_needs_query (q : String)
    (gt : List GraphType) (ns : List ExtendedNode)
    (rs : List ExtendedRelationship) (s : Scheme) (p : VisibleState)
    (hq : q ≠ "") (hns : ns ≠ []) :
    (∀ n ∈ (searchEffect q gt ns rs s p).node, nodeCategory n ∈ gt) ∧
    (gt = [] → (searchEffect q gt ns rs s p).node = [] ∧
      (searchEffect q gt ns rs s p).relationship = []) := by
  have hcond : q ≠ "" ∧ ns ≠ [] := ⟨hq, hns⟩
  unfold searchEffect
  rw [if_pos hcond]
  constructor
  · intro n hn
    have hn' : n ∈ (filterData gt ns rs s).filteredNodes := hn
    exact (mem_filteredNodes.mp hn').2
  · rintro rfl
    exact ⟨by simp [filterData], by simp [filterData]⟩

/-- Witness for the amended C3 at a concrete graph and query. -/
theorem c3_witness :
    nodeCategory entityNode ∈ (["Entities"] : List GraphType) :=
  (c3_amended_category_filter_needs_query "x" ["Entities"] [entityNode] [] []
    ⟨[], []⟩ (by decide) (by decide)).1 entityNode (by decide)

lemma assocFind_append_of_some {α : Type} {s t : List (String × α)}
    {k : String} {c : α} (h : assocFind s k = some c) :
    assocFind (s ++ t) k = some c := by
  induction s with
  | nil => simp [assocFind] at h
  | cons hd tl ih =>
    rcases hd with ⟨k', v⟩
    by_cases hk : k' = k
    · simpa [assocFind, hk] using h
    · simp only [List.cons_append, assocFind, if_neg hk] at h ⊢
      exact ih h

lemma assocFind_append_of_none {α : Type} {s : List (String × α)}
    (t : List (String × α)) {k : String} (h : assocFind s k = none) :
    assocFind (s ++ t) k = assocFind t k := by
  induction s with
  | nil => simp
  | cons hd tl ih =>
    rcases hd with ⟨k', v⟩
    by_cases hk : k' = k
    · simp [assocFind, hk] at h
    · simp only [assocFind, if_neg hk] at h
      simp only [List.cons_append, assocFind, if_neg hk]
      exact ih h

lemma assign_scheme_mono {label l' : String} {s : Scheme} {c : Nat}
    (h : assocFind s label = some c) :
    assocFind (assign l' s).2 label = some c := by
  simp only [assign]
  cases hfound : assocFind s l' with
  | some c' => exact h
  | none => exact assocFind_append_of_some h

lemma assign_find_self (label : String) (s : Scheme) :
    assocFind (assign label s).2 label = some (assign label s).1 := by
  simp only [assign]
  cases hfound : assocFind s label with
  | some c => exact hfound
  | none =>
    rw [assocFind_append_of_none _ hfound]
    simp [assocFind]

lemma assignNodes_scheme_mono : ∀ (ns : List ExtendedNode) (s : Scheme)
    {label : String} {c : Nat}, assocFind s label = some c →
    assocFind (assignNodes ns s).2 label = some c := by
  intro ns
  induction ns with
  | nil => intro s label c h; exact h
  | cons n rest ih =>
    intro s label c h
    simp only [assignNodes]
    exact ih _ (assign_scheme_mono h)

lemma assignNodes_color_find : ∀ (ns : List ExtendedNode) (s : Scheme),
    ∀ x ∈ (assignNodes ns s).1,
    assocFind (assignNodes ns s).2 (primaryLabel x) = some x.color := by
  intro ns
  induction ns with
  | nil => intro s x hx; simp [assignNodes] at hx
  | cons n rest ih =>
    intro s x hx
    simp only [assignNodes] at hx ⊢
    rcases List.mem_cons.mp hx with rfl | hx'
    · exact assignNodes_scheme_mono rest _
        (assign_find_self (primaryLabel n) s)
    · exact ih _ x hx'

/-- Counterexample to C4 as stated: re-running the data effect in the same
session rebuilds the scheme from scratch, so "Chunk" (assigned color 1 in
the first pass) is reassigned color 0 by a later pass on updated data, and
a pass with empty data removes the key entirely. -/
theorem c4_counterexample :
    assocFind (dataEffect [docNode, chunkNode] [] emptyComponentState).scheme
      "Chunk" = some 1 ∧
    assocFind (dataEffect [chunkNode] []
      (dataEffect [docNode, chunkNode] [] emptyComponentState)).scheme
      "Chunk" = some 0 ∧
    assocFind (dataEffect [] []
      (dataEffect [docNode, chunkNode] [] emptyComponentState)).scheme
      "Chunk" = none := by decide

/-- C4 as amended: the append-only/stable-color guarantee holds within a
single normalization pass — an assigned label keeps its color while the
pass proceeds, and any two output nodes sharing a primary label share a
color — but it does not extend across passes, which rebuild the scheme
from the new raw data alone. -/
theorem c4_amended_scheme_stable_within_pass :
    (∀ (ns : List ExtendedNode) (s : Scheme) (label : String) (c : Nat),
      assocFind s label = some c →
      assocFind (assignNodes ns s).2 label = some c) ∧
    (∀ (rawNodes : List ExtendedNode) (rawRels : List ExtendedRelationship)
      (n m : ExtendedNode),
      n ∈ (processGraphData rawNodes rawRels).finalNodes →
      m ∈ (processGraphData rawNodes rawRels).finalNodes →
      primaryLabel n = primaryLabel m → n.color = m.color) := by
  constructor
  · intro ns s label c h
    exact assignNodes_scheme_mono ns s h
  · intro rawNodes rawRels n m hn hm hlab
    simp only [processGraphData] at hn hm
    have h1 := assignNodes_color_find (dedupeNodes rawNodes) [] n hn
    have h2 := assignNodes_color_find (dedupeNodes rawNodes) [] m hm
    rw [hlab] at h1
    exact Option.some.inj (h1.symm.trans h2)

/-- A second chunk node, sharing `chunkNode`'s primary label. -/
def chunkNodeB : ExtendedNode :=
  ⟨"4", ["Chunk"], [], "", 0⟩

/-- Witness for the amended C4: a previously assigned label keeps its
color through a concrete pass, and two same-label nodes of a concrete
pass carry the same color. -/
theorem c4_witness :
    assocFind (assignNodes [chunkNode] [("Document", 0)]).2 "Document"
      = some 0 ∧
    (⟨"2", ["Chunk"], [("text", "hello")], "hello", 0⟩ : ExtendedNode).color
      = (⟨"4", ["Chunk"], [], "4", 0⟩ : ExtendedNode).color :=
  ⟨c4_amended_scheme_stable_within_pass.1 [chunkNode] [("Document", 0)]
    "Document" 0 (by decide),
   c4_amended_scheme_stable_within_pass.2 [chunkNode, chunkNodeB] []
    ⟨"2", ["Chunk"], [("text", "hello")], "hello", 0⟩
    ⟨"4", ["Chunk"], [], "4", 0⟩ (by decide) (by decide) (by decide)⟩

/-- C8: the three empty states are rendered distinctly — empty raw input
yields the no-data card (distinct from the error banner), a non-loading
non-error state with an empty visible set and at least one active
category yields the no-matches banner, and the checkbox view with no
active category yields the select-a-category banner; the three outcomes
are pairwise distinct. -/
theorem c8_empty_state_distinctions :
    (∀ (loading : Bool) (status : GraphStatus) (node : List ExtendedNode)
      (rel : List ExtendedRelationship) (gt : List GraphType) (cb : Bool),
      renderCase [] [] loading status node rel gt cb = RenderCase.noData) ∧
    (RenderCase.noData ≠ RenderCase.dangerBanner ∧
      RenderCase.noData ≠ RenderCase.noMatchesBanner ∧
      RenderCase.noData ≠ RenderCase.selectCategoryBanner ∧
      RenderCase.noMatchesBanner ≠ RenderCase.selectCategoryBanner) ∧
    (∀ (nv : List ExtendedNode) (rv : List ExtendedRelationship)
      (status : GraphStatus) (gt : List GraphType) (cb : Bool),
      ¬(nv = [] ∧ rv = []) → status ≠ GraphStatus.danger → gt ≠ [] →
      renderCase nv rv false status [] [] gt cb = RenderCase.noMatchesBanner) ∧
    (∀ (nv : List ExtendedNode) (rv : List ExtendedRelationship)
      (status : GraphStatus) (node : List ExtendedNode)
      (rel : List ExtendedRelationship),
      ¬(nv = [] ∧ rv = []) → status ≠ GraphStatus.danger →
      renderCase nv rv false status node rel [] true
        = RenderCase.selectCategoryBanner) := by
  refine ⟨?_, by decide, ?_, ?_⟩
  · intro loading status node rel gt cb
    simp [renderCase]
  · intro nv rv status gt cb h1 h2 h3
    simp [renderCase, h1, h2, h3]
  · intro nv rv status node rel h1 h2
    simp [renderCase, h1, h2]

/-- Witness for C8 at concrete states: a loaded graph whose visible set
is empty renders the no-matches banner, and the checkbox view with no
category renders the select-a-category banner. -/
theorem c8_witness :
    renderCase [docNode] [] false GraphStatus.success [] [] ["DocumentChunk"]
      true = RenderCase.noMatchesBanner ∧
    renderCase [docNode] [] false GraphStatus.success [canonNode] [relOne] []
      true = RenderCase.selectCategoryBanner :=
  ⟨c8_empty_state_distinctions.2.2.1 [docNode] [] GraphStatus.success
    ["DocumentChunk"] true (by simp) (by decide) (by decide),
   c8_empty_state_distinctions.2.2.2 [docNode] [] GraphStatus.success
    [canonNode] [relOne] (by simp) (by decide)⟩

end NeoViz
